import Mathlib

/-!
Verification of the CloudPulse ML service (`src/ml-models`).

The development shallowly embeds the orchestration code of
`ml_service.py` together with the output shapes of the two forecasting
backends (`lstm_forecaster.py`, `prophet_forecaster.py`).

Modelling conventions:
* pandas cells are `Option ℝ`, with `none` standing for `NaN`;
* a pandas `DataFrame` manipulated by column name is an insertion-ordered
  association list from column name to the list of cell values
  (assignment to an existing column replaces it in place, assignment to a
  fresh column appends it on the right, exactly as in pandas);
* `datetime` keys and timestamps are natural numbers (`datetime.now()`
  keys grow strictly over successive cycles);
* a Python function that can raise is embedded with result type
  `Except Unit _`; a `try/except` block that only logs is embedded by
  `catchLog`;
* the two forecaster objects are external collaborators: their trained
  state and the numeric contents of their predictions enter the embedding
  as parameters, while the *shape* of the frames they return is taken
  verbatim from the two `predict` implementations.
-/

/-- Arithmetic mean of a list of reals, as computed by pandas `Series.mean`
(`df[metric].mean()` in `detect_anomalies`, `.agg('mean')` in
`aggregate_node_metrics`). -/
noncomputable def listMean (xs : List ℝ) : ℝ := xs.sum / xs.length

/-- Sample variance with denominator `n - 1`, the quantity under the square
root of pandas `std` with its default `ddof = 1`. -/
noncomputable def sampleVar (xs : List ℝ) : ℝ :=
  ((xs.map (fun x => (x - listMean xs) ^ 2)).sum) / ((xs.length : ℝ) - 1)

/-- pandas sample standard deviation (`Series.std()` / `std(axis=1)`,
default `ddof = 1`): `NaN` (modelled as `none`) when fewer than two values
are available, otherwise `√(sampleVar)`. -/
noncomputable def sampleStdOpt (xs : List ℝ) : Option ℝ :=
  if xs.length ≤ 1 then none else some (Real.sqrt (sampleVar xs))

/-- A pandas cell; `none` models `NaN`. -/
abbrev Cell : Type := Option ℝ

/-- A pandas `DataFrame`, column oriented: insertion-ordered association
list from column name to cell values. -/
abbrev ColDF : Type := List (String × List Cell)

/-- `df.columns`. -/
def colNames (df : ColDF) : List String := df.map (fun p => p.1)

/-- `name in df.columns`. -/
def hasCol (df : ColDF) (name : String) : Bool := df.any (fun p => p.1 = name)

/-- `df[name]` (the empty column on a missing name, which never occurs on
the paths exercised here). -/
def lookupCol (df : ColDF) (name : String) : List Cell :=
  ((df.find? (fun p => p.1 = name)).map (fun p => p.2)).getD []

/-- `df[name] = vals`: replace the column in place when present, else
append it as the rightmost column. -/
def setCol (df : ColDF) (name : String) (vals : List Cell) : ColDF :=
  if hasCol df name then df.map (fun p => if p.1 = name then (name, vals) else p)
  else df ++ [(name, vals)]

/-- `df.drop(columns=[name])`. -/
def dropCol (df : ColDF) (name : String) : ColDF :=
  df.filter (fun p => ¬ p.1 = name)

/-- The rows of the sub-frame `df[cols]`, used for the row-wise (`axis=1`)
reductions: row `i` collects the `i`-th cell of every selected column. -/
def rowsOf (cols : List (List Cell)) : List (List Cell) :=
  match cols with
  | [] => []
  | c :: _ => (List.range c.length).map (fun i => cols.map (fun col => col.getD i none))

/-- pandas `mean(axis=1)` on one row: mean of the non-`NaN` cells, `NaN`
when there are none (`skipna` default). -/
noncomputable def rowMean (row : List Cell) : Cell :=
  let v := row.filterMap id
  if v.isEmpty then none else some (listMean v)

/-- pandas `std(axis=1)` on one row: sample standard deviation of the
non-`NaN` cells (`ddof = 1`), `NaN` when fewer than two. -/
noncomputable def rowStd (row : List Cell) : Cell :=
  sampleStdOpt (row.filterMap id)

/-- The tracked metrics, the literal list `['cpu_usage', 'memory_usage',
'network_io']` of `combine_forecasts` and `detect_anomalies`. -/
def tracked_metrics : List String := ["cpu_usage", "memory_usage", "network_io"]

/-- `CloudPulseMLService.combine_forecasts` (ml_service.py lines 177-207).
The input is the `forecasts` dict in insertion order. -/
noncomputable def combine_forecasts (forecasts : List (String × ColDF)) : Option ColDF :=
  if forecasts.isEmpty then none
  else
    let combined :=
      forecasts.foldl
        (fun (acc : Option ColDF) (entry : String × ColDF) =>
          match acc with
          | none =>
            -- first backend: copy, then rename every non-timestamp column
            -- to its backend-qualified name and drop the original
            some ((colNames entry.2).foldl
              (fun c col =>
                if col = "timestamp" then c
                else dropCol (setCol c (col ++ "_" ++ entry.1) (lookupCol c col)) col)
              entry.2)
          | some c0 =>
            -- later backends: add each non-timestamp column under its
            -- backend-qualified name
            some ((colNames entry.2).foldl
              (fun c col =>
                if col = "timestamp" then c
                else setCol c (col ++ "_" ++ entry.1) (lookupCol entry.2 col))
              c0))
        none
    match combined with
    | none => none
    | some c0 =>
      some (tracked_metrics.foldl
        (fun c metric =>
          let model_cols := forecasts.map (fun q => metric ++ "_" ++ q.1)
          if model_cols.all (fun mc => hasCol c mc) then
            let rows := rowsOf (model_cols.map (fun mc => lookupCol c mc))
            setCol (setCol c (metric ++ "_ensemble") (rows.map rowMean))
              (metric ++ "_std") (rows.map rowStd)
          else c)
        c0)

/-- Shape of `LSTMForecaster.predict` output (lstm_forecaster.py lines
134-137): a `timestamp` column followed by one plainly-named column per
feature. The numeric contents are opaque parameters. -/
def lstm_pred_df (features : List String) (ts : List Cell) (vals : String → List Cell) :
    ColDF :=
  ("timestamp", ts) :: features.map (fun f => (f, vals f))

/-- Shape of `ProphetForecaster.predict` output (prophet_forecaster.py
lines 102-111): a `timestamp` column, then `<metric>_predicted`,
`<metric>_lower`, `<metric>_upper` columns for every trained metric. The
numeric contents are opaque parameters. -/
def prophet_pred_df (metrics : List String) (ts : List Cell)
    (pred lower upper : String → List Cell) : ColDF :=
  metrics.foldl
    (fun df m =>
      setCol (setCol (setCol df (m ++ "_predicted") (pred m)) (m ++ "_lower") (lower m))
        (m ++ "_upper") (upper m))
    [("timestamp", ts)]

/-- A raw agent payload (`MetricDocument`). An `Option` field is `none`
when the corresponding required key is missing from the document, which
makes the extraction in `process_metrics_data` raise `KeyError`. -/
structure MetricDoc where
  timestamp : Option ℕ
  node_id : Option String
  cpu_usage_percent : Option ℝ
  memory_used_percent : Option ℝ
  network_bytes_sent : Option ℝ
  network_bytes_recv : Option ℝ

/-- A normalized row of the processed frame. The `network_bytes` field is
the `network_io` column of the Python frame (sent plus received bytes);
the Lean field name differs from the column name only for lexical
reasons. -/
structure MetricRecord where
  timestamp : ℕ
  node_id : String
  cpu_usage : ℝ
  memory_usage : ℝ
  network_bytes : ℝ

/-- Whether a document carries every required field. -/
def docComplete (d : MetricDoc) : Bool :=
  d.timestamp.isSome && d.node_id.isSome && d.cpu_usage_percent.isSome &&
  d.memory_used_percent.isSome && d.network_bytes_sent.isSome && d.network_bytes_recv.isSome

/-- Extraction of one document (ml_service.py lines 90-102): any missing
field raises (`.error`). -/
def processDoc (d : MetricDoc) : Except Unit MetricRecord :=
  match d.cpu_usage_percent, d.memory_used_percent, d.network_bytes_sent,
    d.network_bytes_recv, d.timestamp, d.node_id with
  | some c, some m, some s, some r, some t, some n => .ok ⟨t, n, c, m, s + r⟩
  | _, _, _, _, _, _ => .error ()

/-- `CloudPulseMLService.process_metrics_data` (lines 86-104): one record
per document, the first missing field aborting the whole call. -/
def process_metrics_data : List MetricDoc → Except Unit (List MetricRecord)
  | [] => .ok []
  | d :: ds =>
    match processDoc d with
    | .error e => .error e
    | .ok r =>
      match process_metrics_data ds with
      | .error e => .error e
      | .ok rs => .ok (r :: rs)

/-- One row of the aggregated cluster-wide frame. As in `MetricRecord`,
`network_bytes` is the `network_io` column. -/
structure AggRow where
  timestamp : ℕ
  cpu_usage : ℝ
  memory_usage : ℝ
  network_bytes : ℝ

/-- The aggregated row for one timestamp group: arithmetic mean of each
metric over the records sharing that timestamp. -/
noncomputable def aggRowFor (records : List MetricRecord) (t : ℕ) : AggRow :=
  let grp := records.filter (fun r => r.timestamp = t)
  ⟨t, listMean (grp.map (fun r => r.cpu_usage)),
    listMean (grp.map (fun r => r.memory_usage)),
    listMean (grp.map (fun r => r.network_bytes))⟩

/-- `CloudPulseMLService.aggregate_node_metrics` (lines 106-115): pandas
`groupby('timestamp').agg('mean')` — one output row per distinct
timestamp, group keys sorted ascending (pandas `sort=True` default). -/
noncomputable def aggregate_node_metrics (records : List MetricRecord) : List AggRow :=
  (((records.map (fun r => r.timestamp)).dedup).insertionSort (· ≤ ·)).map (aggRowFor records)

/-- `metric in row` / `row[metric]` on an aggregated row: the three
tracked metric columns exist, every other name is absent. -/
def getMetric (row : AggRow) (metric : String) : Option ℝ :=
  if metric = "cpu_usage" then some row.cpu_usage
  else if metric = "memory_usage" then some row.memory_usage
  else if metric = "network_io" then some row.network_bytes
  else none

/-- `df[metric]`, the full column of the current snapshot frame. -/
def metricColumn (df : List AggRow) (metric : String) : List ℝ :=
  df.filterMap (fun r => getMetric r metric)

/-- An emitted anomaly (dict literal at ml_service.py lines 225-231). -/
structure Anomaly where
  timestamp : ℕ
  metric : String
  value : ℝ
  z_score : ℝ
  severity : String

/-- The inner body of the `detect_anomalies` loops for one row and one
metric: mean and sample standard deviation over the full current frame,
skip when the standard deviation is `NaN` or not positive, flag when the
z-score exceeds the threshold. -/
noncomputable def anomaly_for (df : List AggRow) (threshold : ℝ) (row : AggRow)
    (metric : String) : Option Anomaly :=
  match getMetric row metric with
  | none => none
  | some v =>
    let mean_val := listMean (metricColumn df metric)
    match sampleStdOpt (metricColumn df metric) with
    | none => none
    | some std_val =>
      if 0 < std_val then
        let z := |v - mean_val| / std_val
        if threshold < z then
          some ⟨row.timestamp, metric, v, z, if 3 < z then "high" else "medium"⟩
        else none
      else none

/-- `CloudPulseMLService.detect_anomalies` (lines 209-233): iterate the
rows, then the tracked metrics, appending each flagged anomaly. -/
noncomputable def detect_anomalies (df : List AggRow) (threshold : ℝ) : List Anomaly :=
  df.flatMap (fun row => tracked_metrics.filterMap (anomaly_for df threshold row))

/-- Population standard deviation. Modelled from the claim's words (claim
C2 and spec section 4.7 say the z-score denominator is the *population*
standard deviation); the code itself uses pandas' sample default. -/
noncomputable def populationStd (xs : List ℝ) : ℝ :=
  Real.sqrt (((xs.map (fun x => (x - listMean xs) ^ 2)).sum) / xs.length)

/-- The keys of the history cache, in insertion order. -/
def cacheKeys {α : Type} (c : List (ℕ × α)) : List ℕ := c.map (fun p => p.1)

/-- Python dict assignment `cache[k] = v`: update in place when the key
exists, otherwise append (dicts preserve insertion order). -/
def dictInsert {α : Type} (c : List (ℕ × α)) (k : ℕ) (v : α) : List (ℕ × α) :=
  if c.any (fun p => p.1 = k) then c.map (fun p => if p.1 = k then (k, v) else p)
  else c ++ [(k, v)]

/-- `min(cache.keys())` (only ever used on a non-empty cache). -/
def minKey {α : Type} (c : List (ℕ × α)) : ℕ := ((cacheKeys c).min?).getD 0

/-- `del cache[k]`. -/
def delKey {α : Type} (c : List (ℕ × α)) (k : ℕ) : List (ℕ × α) :=
  c.filter (fun p => ¬ p.1 = k)

/-- The cache step of the cycle (ml_service.py lines 250-255): insert the
new snapshot under the current instant, then evict the minimum key when
the size exceeds 1000. -/
def cachePut {α : Type} (c : List (ℕ × α)) (k : ℕ) (v : α) : List (ℕ × α) :=
  let c1 := dictInsert c k v
  if 1000 < c1.length then delKey c1 (minKey c1) else c1

/-- A Python `try/except` block whose handler only logs: the result on
success, the prior value on an exception. -/
def catchLog {α : Type} (x : Except Unit α) (default : α) : α :=
  match x with
  | .ok a => a
  | .error _ => default

/-- `CloudPulseMLService.generate_forecasts` (lines 153-175). Each
backend's trained flag and `predict` outcome enter as parameters; each
backend runs inside its own `try/except` that only logs, so a failure
leaves the `forecasts` dict as it was. -/
def generate_forecasts (lstm_trained : Bool) (lstm_out : Except Unit ColDF)
    (prophet_trained : Bool) (prophet_out : Except Unit ColDF) : List (String × ColDF) :=
  let forecasts : List (String × ColDF) := []
  let forecasts :=
    catchLog
      (if lstm_trained then lstm_out.map (fun d => forecasts ++ [("lstm", d)])
       else .ok forecasts) forecasts
  let forecasts :=
    catchLog
      (if prophet_trained then prophet_out.map (fun d => forecasts ++ [("prophet", d)])
       else .ok forecasts) forecasts
  forecasts

/-- `CloudPulseMLService.train_models` (lines 117-137): each backend's
`train` call runs in its own logging `try/except`; a backend's `is_trained`
flag becomes true on success and keeps its previous value on failure. -/
def train_models (lstm_prev prophet_prev : Bool)
    (lstm_train prophet_train : Except Unit Unit) : Bool × Bool :=
  (catchLog (lstm_train.map (fun _ => true)) lstm_prev,
   catchLog (prophet_train.map (fun _ => true)) prophet_prev)

/-- The shared mutable state of `CloudPulseMLService` read by the query
surface: the history cache, `latest_forecasts` (`none` models both the
initial `{}` and an assigned `None`) and `latest_anomalies`. -/
structure ServiceState where
  data_cache : List (ℕ × List AggRow)
  latest_forecasts : Option ColDF
  latest_anomalies : List Anomaly

/-- How one invocation of `run_forecasting_cycle` ended. -/
inductive CycleOutcome
  | noData
  | raised
  | completed
deriving DecidableEq

/-- `CloudPulseMLService.run_forecasting_cycle` (lines 235-277) as a state
transition: early exit on zero documents, propagation of a processing
error (before any mutation), otherwise aggregate, cache, forecast,
combine, detect and publish. -/
noncomputable def run_forecasting_cycle (st : ServiceState) (now : ℕ)
    (docs : List MetricDoc) (lstm_trained : Bool) (lstm_out : Except Unit ColDF)
    (prophet_trained : Bool) (prophet_out : Except Unit ColDF) :
    ServiceState × CycleOutcome :=
  if docs.isEmpty then (st, .noData)
  else
    match process_metrics_data docs with
    | .error _ => (st, .raised)
    | .ok records =>
      let aggregated := aggregate_node_metrics records
      let cache := cachePut st.data_cache now aggregated
      let forecasts := generate_forecasts lstm_trained lstm_out prophet_trained prophet_out
      let combined := combine_forecasts forecasts
      let anomalies := detect_anomalies aggregated 2
      (⟨cache, combined, anomalies⟩, .completed)

/-- C7: a cycle whose collection step returns zero documents ends
immediately with the no-data outcome and leaves the entire shared state —
`latest_forecasts`, `latest_anomalies` and the history cache — exactly as
it was before the cycle. -/
theorem zero_documents_cycle_is_noop (st : ServiceState) (now : ℕ)
    (lt : Bool) (lr : Except Unit ColDF) (pt : Bool) (pr : Except Unit ColDF) :
    run_forecasting_cycle st now [] lt lr pt pr = (st, CycleOutcome.noData) := rfl

/-- C9: backends are fault isolated. `generate_forecasts` is total (each
backend call sits in its own logging `try/except`, so no backend exception
reaches the caller), the returned mapping contains a backend exactly when
that backend was trained and its `predict` succeeded — irrespective of the
other backend's outcome — and in `train_models` each backend's trained
flag depends only on its own training outcome. -/
theorem backend_failures_are_isolated (lt : Bool) (lr : Except Unit ColDF)
    (pt : Bool) (pr : Except Unit ColDF) :
    (∀ d, ("lstm", d) ∈ generate_forecasts lt lr pt pr ↔ lt = true ∧ lr = .ok d) ∧
    (∀ d, ("prophet", d) ∈ generate_forecasts lt lr pt pr ↔ pt = true ∧ pr = .ok d) ∧
    (∀ (lp pp : Bool) (tr : Except Unit Unit),
      (train_models lp pp (.error ()) tr).2 = (train_models lp pp (.ok ()) tr).2 ∧
      (train_models lp pp tr (.error ())).1 = (train_models lp pp tr (.ok ())).1) := by
  refine ⟨?_, ?_, ?_⟩
  · intro d
    cases lt <;> cases pt <;> cases lr <;> cases pr <;>
      simp [generate_forecasts, catchLog, Except.map, eq_comm]
  · intro d
    cases lt <;> cases pt <;> cases lr <;> cases pr <;>
      simp [generate_forecasts, catchLog, Except.map, eq_comm]
  · intro lp pp tr
    exact ⟨rfl, rfl⟩

/-- The LSTM backend's `predict` output shape for the tracked features,
with opaque contents: one cell per future step per feature. -/
def lstmShape : ColDF := lstm_pred_df tracked_metrics [some 0] (fun _ => [some 0])

/-- The Prophet backend's `predict` output shape for the tracked metrics,
with opaque contents. -/
def prophetShape : ColDF :=
  prophet_pred_df tracked_metrics [some 0] (fun _ => [some 0]) (fun _ => [some 0])
    (fun _ => [some 0])

/-- The combined frame produced from the two real backends' shapes. -/
noncomputable def combinedShape : ColDF :=
  (combine_forecasts [("lstm", lstmShape), ("prophet", prophetShape)]).getD []

/-- C1: evaluating `combine_forecasts` on the column shapes actually
produced by the two supplied backends. Both backends contribute a forecast
for `cpu_usage` (the LSTM column becomes `cpu_usage_lstm`, the Prophet
column becomes `cpu_usage_predicted_prophet`), yet the guard looks for
`cpu_usage_prophet`, which never exists, so no `cpu_usage_ensemble` or
`cpu_usage_std` column is ever created — contradicting the claim. -/
theorem ensemble_columns_never_created_for_real_backends :
    hasCol combinedShape "cpu_usage_lstm" = true ∧
    hasCol combinedShape "cpu_usage_predicted_prophet" = true ∧
    hasCol combinedShape "cpu_usage_prophet" = false ∧
    hasCol combinedShape "cpu_usage_ensemble" = false ∧
    hasCol combinedShape "cpu_usage_std" = false ∧
    hasCol combinedShape "memory_usage_ensemble" = false ∧
    hasCol combinedShape "network_io_ensemble" = false := by
  decide

/-- C5: two backends over the same two timestamps, each series carrying
only `timestamp` and `cpu_usage`, with values `[10, 20]` and `[30, 40]`:
the combined frame gets `cpu_usage_ensemble = [20, 30]` and
`cpu_usage_std` equal to the two-sample (`ddof = 1`) standard deviation of
`{10, 30}` and of `{20, 40}` row-wise, both `√200`. -/
theorem two_backend_ensemble_mean_and_sample_std (t1 t2 : Cell) :
    lookupCol ((combine_forecasts
      [("lstm", [("timestamp", [t1, t2]), ("cpu_usage", [some 10, some 20])]),
       ("prophet", [("timestamp", [t1, t2]), ("cpu_usage", [some 30, some 40])])]).getD [])
      "cpu_usage_ensemble" = [some 20, some 30] ∧
    lookupCol ((combine_forecasts
      [("lstm", [("timestamp", [t1, t2]), ("cpu_usage", [some 10, some 20])]),
       ("prophet", [("timestamp", [t1, t2]), ("cpu_usage", [some 30, some 40])])]).getD [])
      "cpu_usage_std" = [some (Real.sqrt 200), some (Real.sqrt 200)] ∧
    sampleStdOpt [10, 30] = some (Real.sqrt 200) ∧
    sampleStdOpt [20, 40] = some (Real.sqrt 200) := by
  refine ⟨?_, ?_, ?_, ?_⟩
  · simp [combine_forecasts, tracked_metrics, colNames, hasCol, setCol, dropCol, lookupCol,
      rowsOf, rowMean, rowStd, listMean, show List.range 2 = [0, 1] from rfl]
    norm_num
  · simp [combine_forecasts, tracked_metrics, colNames, hasCol, setCol, dropCol, lookupCol,
      rowsOf, rowMean, rowStd, listMean, sampleStdOpt, sampleVar,
      show List.range 2 = [0, 1] from rfl]
    norm_num
  · simp [sampleStdOpt, sampleVar, listMean]
    norm_num
  · simp [sampleStdOpt, sampleVar, listMean]
    norm_num

/-- pandas mean over a one-cell row is the cell itself (`NaN` included). -/
theorem rowMean_singleton (c : Cell) : rowMean [c] = c := by
  cases c with
  | none => rfl
  | some v => simp [rowMean, listMean]

/-- pandas sample standard deviation over a one-cell row is `NaN`. -/
theorem rowStd_singleton (c : Cell) : rowStd [c] = none := by
  cases c <;> simp [rowStd, sampleStdOpt]

/-- Reading every position of a list back by index reproduces the list. -/
theorem getD_range_map (l : List Cell) :
    (List.range l.length).map (fun i => l.getD i none) = l := by
  induction l with
  | nil => rfl
  | cons x xs ih =>
    rw [List.length_cons, List.range_succ_eq_map, List.map_cons, List.map_map]
    rw [show ((fun i => (x :: xs).getD i none) ∘ Nat.succ) =
      (fun i => xs.getD i none) from funext fun i => rfl]
    rw [ih]
    rfl

/-- The `mean(axis=1)` column over a single selected column of any length
is that column itself. -/
theorem ensembleCol_single (l : List Cell) : (rowsOf [l]).map rowMean = l := by
  unfold rowsOf
  rw [List.map_map]
  rw [show (rowMean ∘ fun i => [l].map (fun col => col.getD i none)) =
    (fun i => l.getD i none) from funext fun i => rowMean_singleton _]
  exact getD_range_map l

/-- The `std(axis=1)` column over a single selected column of any length
is `NaN` at every row. -/
theorem stdCol_single (l : List Cell) :
    (rowsOf [l]).map rowStd = List.replicate l.length none := by
  unfold rowsOf
  rw [List.map_map]
  rw [show (rowStd ∘ fun i => [l].map (fun col => col.getD i none)) =
    (fun i => (none : Cell)) from funext fun i => rowStd_singleton _]
  rw [List.map_const', List.length_range]

set_option maxHeartbeats 3200000 in
/-- C10: for a forecasts mapping holding exactly one backend — either of
the two supplied backend names — whose series has a column for a tracked
metric, `combine_forecasts` still produces, for every tracked metric the
series covers and for any number of rows, a `<metric>_ensemble` column
equal to that backend's own cells and a `<metric>_std` column that is
`NaN` (`none`) in every row, the sample standard deviation over one value
being undefined. Stated both for the canonical series covering all three
tracked metrics (the LSTM `predict` shape, columns of arbitrary lengths
`ts`, `cs`, `ms`, `ns`) and for a series covering `cpu_usage` alone. -/
theorem single_backend_ensemble_copies_values_std_nan (n : String)
    (hn : n = "lstm" ∨ n = "prophet") (ts cs ms ns : List Cell) :
    (lookupCol ((combine_forecasts [(n, [("timestamp", ts), ("cpu_usage", cs),
        ("memory_usage", ms), ("network_io", ns)])]).getD [])
      "cpu_usage_ensemble" = cs ∧
     lookupCol ((combine_forecasts [(n, [("timestamp", ts), ("cpu_usage", cs),
        ("memory_usage", ms), ("network_io", ns)])]).getD [])
      "cpu_usage_std" = List.replicate cs.length none) ∧
    (lookupCol ((combine_forecasts [(n, [("timestamp", ts), ("cpu_usage", cs),
        ("memory_usage", ms), ("network_io", ns)])]).getD [])
      "memory_usage_ensemble" = ms ∧
     lookupCol ((combine_forecasts [(n, [("timestamp", ts), ("cpu_usage", cs),
        ("memory_usage", ms), ("network_io", ns)])]).getD [])
      "memory_usage_std" = List.replicate ms.length none) ∧
    (lookupCol ((combine_forecasts [(n, [("timestamp", ts), ("cpu_usage", cs),
        ("memory_usage", ms), ("network_io", ns)])]).getD [])
      "network_io_ensemble" = ns ∧
     lookupCol ((combine_forecasts [(n, [("timestamp", ts), ("cpu_usage", cs),
        ("memory_usage", ms), ("network_io", ns)])]).getD [])
      "network_io_std" = List.replicate ns.length none) ∧
    (lookupCol ((combine_forecasts
        [(n, [("timestamp", ts), ("cpu_usage", cs)])]).getD [])
      "cpu_usage_ensemble" = cs ∧
     lookupCol ((combine_forecasts
        [(n, [("timestamp", ts), ("cpu_usage", cs)])]).getD [])
      "cpu_usage_std" = List.replicate cs.length none) := by
  rcases hn with rfl | rfl <;>
    refine ⟨⟨?_, ?_⟩, ⟨?_, ?_⟩, ⟨?_, ?_⟩, ?_, ?_⟩ <;>
    simp [combine_forecasts, tracked_metrics, colNames, hasCol, setCol, dropCol,
      lookupCol, ensembleCol_single, stdCol_single]

/-- Witness for C10: an lstm-named single-backend mapping over a
three-row series gets its cpu values copied into the ensemble column. -/
theorem single_backend_ensemble_copies_values_std_nan_w :
    lookupCol ((combine_forecasts [("lstm",
      [("timestamp", [some 0, some 1, some 2]),
       ("cpu_usage", [some 7, some 8, some 9]),
       ("memory_usage", [some 4, some 5, some 6]),
       ("network_io", [some 1, some 2, some 3])])]).getD [])
      "cpu_usage_ensemble" = [some 7, some 8, some 9] :=
  (single_backend_ensemble_copies_values_std_nan "lstm" (Or.inl rfl)
    [some 0, some 1, some 2] [some 7, some 8, some 9]
    [some 4, some 5, some 6] [some 1, some 2, some 3]).1.1

/-- A complete agent document used to exercise concrete cycles. -/
def docOk : MetricDoc := ⟨some 0, some "node-a", some 1, some 2, some 3, some 4⟩

/-- A prior state carrying a previously published forecast. -/
def prevState : ServiceState := ⟨[], some [("timestamp", [some 0])], []⟩

/-- C3 counterexample: a cycle that collects one (well-formed) document
while both backends are untrained produces an empty forecasts mapping, and
`run_forecasting_cycle` then overwrites `latest_forecasts` — which held a
previously published forecast — with the absent value `None`, so the query
surface no longer returns the last successfully published forecast. -/
theorem latest_forecasts_clobbered_by_forecastless_cycle :
    prevState.latest_forecasts = some [("timestamp", [some 0])] ∧
    (run_forecasting_cycle prevState 0 [docOk] false (.error ()) false
      (.error ())).1.latest_forecasts = none := by
  constructor
  · rfl
  · rfl

/-- C3 amended: in a cycle that collects at least one document, processes
it successfully, but in which no backend contributes a forecast,
`run_forecasting_cycle` completes and replaces `latest_forecasts` with the
absent value (`None`); the previously published forecast state is *not*
retained — only the zero-document early exit preserves it. -/
theorem forecastless_cycle_publishes_none (st : ServiceState) (now : ℕ)
    (docs : List MetricDoc) (lt : Bool) (lr : Except Unit ColDF)
    (pt : Bool) (pr : Except Unit ColDF) (hne : docs ≠ [])
    (hok : (process_metrics_data docs).isOk = true)
    (hempty : generate_forecasts lt lr pt pr = []) :
    (run_forecasting_cycle st now docs lt lr pt pr).1.latest_forecasts = none ∧
    (run_forecasting_cycle st now docs lt lr pt pr).2 = CycleOutcome.completed := by
  unfold run_forecasting_cycle
  rcases h : process_metrics_data docs with e | records
  · rw [h] at hok
    exact absurd hok (by simp [Except.isOk, Except.toBool])
  · have hde : docs.isEmpty = false := by
      cases docs with
      | nil => exact absurd rfl hne
      | cons d ds => rfl
    simp [hde, h, hempty, combine_forecasts]

/-- Witness for the amended C3: a concrete forecastless cycle over one
document starting from the empty state publishes `None`. -/
theorem forecastless_cycle_publishes_none_w :
    (run_forecasting_cycle ⟨[], none, []⟩ 5 [docOk] false (.error ()) false
      (.error ())).1.latest_forecasts = none :=
  (forecastless_cycle_publishes_none ⟨[], none, []⟩ 5 [docOk] false (.error ()) false
    (.error ()) (by simp) (by decide) rfl).1

/-- The outcome of extracting one document succeeds exactly when the
document is complete. -/
theorem processDoc_isOk (d : MetricDoc) : (processDoc d).isOk = docComplete d := by
  obtain ⟨t, n, c, m, s, r⟩ := d
  cases t <;> cases n <;> cases c <;> cases m <;> cases s <;> cases r <;>
    simp [processDoc, docComplete, Except.isOk, Except.toBool]

/-- C8: `process_metrics_data` raises exactly when some document is
missing a required field, and a cycle in which it raises ends with the
`raised` outcome and the shared state — cache, `latest_forecasts`,
`latest_anomalies` — exactly as before the cycle (the raise happens before
any mutation). -/
theorem malformed_document_aborts_cycle_state_untouched :
    (∀ docs : List MetricDoc,
      (process_metrics_data docs).isOk = true ↔ ∀ d ∈ docs, docComplete d = true) ∧
    (∀ (st : ServiceState) (now : ℕ) (docs : List MetricDoc) (lt : Bool)
      (lr : Except Unit ColDF) (pt : Bool) (pr : Except Unit ColDF),
      (process_metrics_data docs).isOk = false →
      run_forecasting_cycle st now docs lt lr pt pr = (st, CycleOutcome.raised)) := by
  have hiff : ∀ docs : List MetricDoc,
      (process_metrics_data docs).isOk = true ↔ ∀ d ∈ docs, docComplete d = true := by
    intro docs
    induction docs with
    | nil => simp [process_metrics_data, Except.isOk, Except.toBool]
    | cons d ds ih =>
      rcases hd : processDoc d with e | r
      · have : docComplete d = false := by
          have := processDoc_isOk d
          rw [hd] at this
          simpa [Except.isOk, Except.toBool] using this.symm
        simp [process_metrics_data, hd, Except.isOk, Except.toBool, this]
      · have hcd : docComplete d = true := by
          have := processDoc_isOk d
          rw [hd] at this
          simpa [Except.isOk, Except.toBool] using this.symm
        rcases hds2 : process_metrics_data ds with e' | rs
        · rw [hds2] at ih
          simp [Except.isOk, Except.toBool] at ih
          obtain ⟨x, hx, hxc⟩ := ih
          simp [process_metrics_data, hd, hds2, Except.isOk, Except.toBool, hcd]
          exact ⟨x, hx, hxc⟩
        · rw [hds2] at ih
          simp [Except.isOk, Except.toBool] at ih
          simp [process_metrics_data, hd, hds2, Except.isOk, Except.toBool, hcd]
          exact ih
  refine ⟨hiff, ?_⟩
  intro st now docs lt lr pt pr hfail
  cases docs with
  | nil => simp [process_metrics_data, Except.isOk, Except.toBool] at hfail
  | cons d ds =>
    rcases h : process_metrics_data (d :: ds) with e | records
    · simp [run_forecasting_cycle, h]
    · rw [h] at hfail
      simp [Except.isOk, Except.toBool] at hfail

/-- An agent document missing its `cpu.usage_percent` field. -/
def docBad : MetricDoc := ⟨some 0, some "node-a", none, some 2, some 3, some 4⟩

/-- Witness for C8: a cycle fed one document that lacks
`cpu.usage_percent` raises and leaves the prior state intact. -/
theorem malformed_document_aborts_cycle_w :
    run_forecasting_cycle prevState 7 [docBad] false (.error ()) false (.error ()) =
      (prevState, CycleOutcome.raised) :=
  malformed_document_aborts_cycle_state_untouched.2 prevState 7 [docBad] false
    (.error ()) false (.error ()) (by decide)

/-- The flagging rule as the spec states it (with the pandas sample
standard deviation the code actually uses): an anomaly is emitted for a
row and tracked metric exactly when the metric's standard deviation over
the full current snapshot set is positive and the z-score
`|value - mean| / std` exceeds the threshold, carrying that z-score and
severity `high` precisely above 3. -/
def AnomalySpec (df : List AggRow) (t : ℝ) (a : Anomaly) : Prop :=
  ∃ row ∈ df, ∃ m ∈ tracked_metrics, ∃ v σ,
    getMetric row m = some v ∧
    sampleStdOpt (metricColumn df m) = some σ ∧ 0 < σ ∧
    t < |v - listMean (metricColumn df m)| / σ ∧
    a = ⟨row.timestamp, m, v, |v - listMean (metricColumn df m)| / σ,
      if 3 < |v - listMean (metricColumn df m)| / σ then "high" else "medium"⟩

/-- Unfolding of one loop body of `detect_anomalies`. -/
theorem anomaly_for_eq_some (df : List AggRow) (t : ℝ) (row : AggRow) (m : String)
    (a : Anomaly) :
    anomaly_for df t row m = some a ↔
      ∃ v σ, getMetric row m = some v ∧
        sampleStdOpt (metricColumn df m) = some σ ∧ 0 < σ ∧
        t < |v - listMean (metricColumn df m)| / σ ∧
        a = ⟨row.timestamp, m, v, |v - listMean (metricColumn df m)| / σ,
          if 3 < |v - listMean (metricColumn df m)| / σ then "high" else "medium"⟩ := by
  unfold anomaly_for
  rcases hg : getMetric row m with _ | v
  · simp
  · rcases hs : sampleStdOpt (metricColumn df m) with _ | σ
    · simp
    · by_cases h0 : 0 < σ
      · by_cases hz : t < |v - listMean (metricColumn df m)| / σ
        · simp [h0, hz, eq_comm]
        · simp [h0, hz]
      · simp [h0]

/-- C2 (amended): over any snapshot set, `detect_anomalies` with threshold
`t` emits an anomaly for exactly those row/tracked-metric pairs whose
z-score — computed with mean and the pandas *sample* (`ddof = 1`) standard
deviation over the full current snapshot set — exceeds `t`, skipping rows
when the standard deviation is zero (or undefined), and every emitted
anomaly has severity `high` iff its z-score exceeds 3. -/
theorem detect_anomalies_exactly_sample_zscore (df : List AggRow) (t : ℝ)
    (hlen : 2 ≤ df.length) (a : Anomaly) :
    (a ∈ detect_anomalies df t ↔ AnomalySpec df t a) ∧
    (a ∈ detect_anomalies df t → (a.severity = "high" ↔ 3 < a.z_score)) := by
  have hmem : a ∈ detect_anomalies df t ↔ AnomalySpec df t a := by
    unfold detect_anomalies AnomalySpec
    simp [List.mem_flatMap, List.mem_filterMap, anomaly_for_eq_some]
  refine ⟨hmem, ?_⟩
  intro ha
  obtain ⟨row, -, m, -, v, σ, -, -, -, -, hae⟩ := hmem.mp ha
  subst hae
  by_cases h3 : 3 < |v - listMean (metricColumn df m)| / σ
  · simp [h3]
  · simp [h3]

/-- A four-row snapshot set whose cpu values are `0, 0, 0, 4` (the other
two metrics are constant, hence skipped by any z-score rule). -/
def df4 : List AggRow := [⟨0, 0, 0, 0⟩, ⟨1, 0, 0, 0⟩, ⟨2, 0, 0, 0⟩, ⟨3, 4, 0, 0⟩]

/-- C2 counterexample: on `df4` with threshold `8/5`, the code flags
nothing — the sample standard deviation of the cpu column is `2`, so the
largest sample z-score is `3/2 ≤ 8/5` — while the claim's population
standard deviation is `√3`, giving the last row the population z-score
`3/√3 = √3 > 8/5`, so the claimed population-based rule demands an anomaly
for it. -/
theorem population_zscore_rule_is_false :
    detect_anomalies df4 (8/5) = [] ∧
    (⟨3, 4, 0, 0⟩ : AggRow) ∈ df4 ∧
    getMetric ⟨3, 4, 0, 0⟩ "cpu_usage" = some 4 ∧
    0 < populationStd (metricColumn df4 "cpu_usage") ∧
    (8/5 : ℝ) < |(4 : ℝ) - listMean (metricColumn df4 "cpu_usage")| /
      populationStd (metricColumn df4 "cpu_usage") := by
  have hcol : metricColumn df4 "cpu_usage" = [0, 0, 0, 4] := rfl
  have hcolm : metricColumn df4 "memory_usage" = [0, 0, 0, 0] := rfl
  have hcoln : metricColumn df4 "network_io" = [0, 0, 0, 0] := rfl
  have hmean : listMean [(0 : ℝ), 0, 0, 4] = 1 := by
    norm_num [listMean]
  have hvar : sampleVar [(0 : ℝ), 0, 0, 4] = 4 := by
    norm_num [sampleVar, hmean]
  have hstd : sampleStdOpt [(0 : ℝ), 0, 0, 4] = some 2 := by
    rw [sampleStdOpt, if_neg (by norm_num), hvar,
      show (4 : ℝ) = 2 ^ 2 by norm_num, Real.sqrt_sq (by norm_num)]
  have hmean0 : listMean [(0 : ℝ), 0, 0, 0] = 0 := by
    norm_num [listMean]
  have hvar0 : sampleVar [(0 : ℝ), 0, 0, 0] = 0 := by
    norm_num [sampleVar, hmean0]
  have hstd0 : sampleStdOpt [(0 : ℝ), 0, 0, 0] = some 0 := by
    rw [sampleStdOpt, if_neg (by norm_num), hvar0, Real.sqrt_zero]
  refine ⟨?_, by simp [df4], rfl, ?_, ?_⟩
  · rw [List.eq_nil_iff_forall_not_mem]
    intro a ha
    rw [detect_anomalies, List.mem_flatMap] at ha
    obtain ⟨row, hrow, ha⟩ := ha
    rw [List.mem_filterMap] at ha
    obtain ⟨m, hm, ha⟩ := ha
    rw [anomaly_for_eq_some] at ha
    obtain ⟨v, σ, hg, hs, h0, hz, -⟩ := ha
    simp only [tracked_metrics, List.mem_cons, List.not_mem_nil, or_false] at hm
    rcases hm with rfl | rfl | rfl
    · rw [hcol, hstd] at hs
      obtain rfl : σ = 2 := by simpa using hs.symm
      rw [hcol, hmean] at hz
      simp only [df4, List.mem_cons, List.not_mem_nil, or_false] at hrow
      rcases hrow with rfl | rfl | rfl | rfl <;>
        · simp only [getMetric, if_pos rfl] at hg
          obtain rfl : v = _ := by simpa using hg.symm
          norm_num at hz
    · rw [hcolm, hstd0] at hs
      obtain rfl : σ = 0 := by simpa using hs.symm
      exact absurd h0 (by norm_num)
    · rw [hcoln, hstd0] at hs
      obtain rfl : σ = 0 := by simpa using hs.symm
      exact absurd h0 (by norm_num)
  · rw [hcol, populationStd, hmean]
    apply Real.sqrt_pos.mpr
    norm_num
  · rw [hcol, populationStd, hmean]
    have h34 : (((([(0 : ℝ), 0, 0, 4].map (fun x => (x - 1) ^ 2)).sum) /
        (([(0 : ℝ), 0, 0, 4].length : ℝ))) : ℝ) = 3 := by
      norm_num
    rw [h34]
    have : |(4 : ℝ) - 1| = 3 := by norm_num
    rw [this, Real.div_sqrt]
    rw [show (8 / 5 : ℝ) < Real.sqrt 3 ↔ (8 / 5 : ℝ) ^ 2 < 3 from
      Real.lt_sqrt (by norm_num)]
    norm_num

/-- Witness for the amended C2: the characterization instantiated on the
concrete snapshot set `df4` with threshold `8/5` and a concrete candidate
anomaly. -/
theorem detect_anomalies_exactly_sample_zscore_w :
    ((⟨3, "cpu_usage", 4, 3 / 2, "medium"⟩ : Anomaly) ∈ detect_anomalies df4 (8 / 5) ↔
      AnomalySpec df4 (8 / 5) ⟨3, "cpu_usage", 4, 3 / 2, "medium"⟩) :=
  (detect_anomalies_exactly_sample_zscore df4 (8 / 5) (by decide)
    ⟨3, "cpu_usage", 4, 3 / 2, "medium"⟩).1

/-- Two records sharing one timestamp from two nodes, the spec's worked
aggregation example. -/
def recs0 : List MetricRecord := [⟨5, "node-a", 10, 0, 0⟩, ⟨5, "node-b", 20, 0, 0⟩]

/-- C6: aggregation produces exactly one row per distinct timestamp (the
output timestamp list is strictly sorted ascending, hence duplicate-free),
covering precisely the input timestamps, and each output row carries the
arithmetic mean of every metric over the records sharing its timestamp;
in particular two records at one timestamp with cpu `10` and `20` yield a
single row with cpu `15`. -/
theorem aggregate_sorted_unique_rowwise_means (records : List MetricRecord)
    (hne : records ≠ []) :
    ((aggregate_node_metrics records).map (fun r => r.timestamp)).Sorted (· < ·) ∧
    (∀ t : ℕ, t ∈ (aggregate_node_metrics records).map (fun r => r.timestamp) ↔
      t ∈ records.map (fun r => r.timestamp)) ∧
    (∀ row ∈ aggregate_node_metrics records,
      row.cpu_usage = listMean ((records.filter
        (fun r => r.timestamp = row.timestamp)).map (fun r => r.cpu_usage)) ∧
      row.memory_usage = listMean ((records.filter
        (fun r => r.timestamp = row.timestamp)).map (fun r => r.memory_usage)) ∧
      row.network_bytes = listMean ((records.filter
        (fun r => r.timestamp = row.timestamp)).map (fun r => r.network_bytes))) ∧
    aggregate_node_metrics recs0 = [⟨5, 15, 0, 0⟩] := by
  have hmapts : (aggregate_node_metrics records).map (fun r => r.timestamp) =
      ((records.map (fun r => r.timestamp)).dedup).insertionSort (· ≤ ·) := by
    unfold aggregate_node_metrics
    rw [List.map_map]
    have hid : ((fun r : AggRow => r.timestamp) ∘ aggRowFor records) = id :=
      funext (fun t => rfl)
    rw [hid, List.map_id]
  have hperm : (((records.map (fun r => r.timestamp)).dedup).insertionSort
      (· ≤ ·)).Perm ((records.map (fun r => r.timestamp)).dedup) :=
    List.perm_insertionSort _ _
  refine ⟨?_, ?_, ?_, ?_⟩
  · rw [hmapts]
    exact (List.sorted_insertionSort _ _).lt_of_le
      (hperm.symm.nodup (List.nodup_dedup _))
  · intro t
    rw [hmapts, hperm.mem_iff, List.mem_dedup]
  · intro row hrow
    unfold aggregate_node_metrics at hrow
    rw [List.mem_map] at hrow
    obtain ⟨tk, -, heq⟩ := hrow
    subst heq
    exact ⟨rfl, rfl, rfl⟩
  · have hdd : ((recs0.map (fun r => r.timestamp)).dedup) = [5] := by decide
    have hsrt : List.insertionSort (· ≤ ·) [5] = [5] := rfl
    unfold aggregate_node_metrics
    rw [hdd, hsrt]
    have : aggRowFor recs0 5 = ⟨5, 15, 0, 0⟩ := by
      unfold aggRowFor recs0
      norm_num [listMean]
    simp [this]

/-- Witness for C6: the sortedness conclusion instantiated on the concrete
two-record input. -/
theorem aggregate_sorted_unique_rowwise_means_w :
    ((aggregate_node_metrics recs0).map (fun r => r.timestamp)).Sorted (· < ·) :=
  (aggregate_sorted_unique_rowwise_means recs0 (by simp [recs0])).1


/-- Folding `min` over keys that all dominate the seed returns the seed. -/
theorem foldl_min_of_le (xs : List ℕ) : ∀ x : ℕ, (∀ y ∈ xs, x ≤ y) →
    xs.foldl min x = x := by
  induction xs with
  | nil => intro x h; rfl
  | cons y ys ih =>
    intro x h
    rw [List.foldl_cons, min_eq_left (h y (by simp))]
    exact ih x (fun z hz => h z (by simp [hz]))

/-- The minimum key of a non-empty cache is one of its keys. -/
theorem minKey_mem {α : Type} (c : List (ℕ × α)) (hne : c ≠ []) :
    minKey c ∈ cacheKeys c := by
  unfold minKey
  cases hk : (cacheKeys c).min? with
  | none =>
    rw [List.min?_eq_none_iff] at hk
    cases c with
    | nil => exact absurd rfl hne
    | cons p c' => simp [cacheKeys] at hk
  | some m => simpa using List.min?_mem (fun a b => min_choice a b) hk

/-- On a strictly sorted cache the minimum key is the first key. -/
theorem minKey_sorted {α : Type} (p0 : ℕ × α) (c : List (ℕ × α))
    (hs : (cacheKeys (p0 :: c)).Sorted (· < ·)) : minKey (p0 :: c) = p0.1 := by
  simp only [cacheKeys, List.map_cons] at hs
  have hle : ∀ y ∈ c.map (fun p => p.1), p0.1 ≤ y := by
    intro y hy
    have := (List.pairwise_cons.mp hs).1 y hy
    omega
  have hmin : (cacheKeys (p0 :: c)).min? = some p0.1 := by
    show ((p0 :: c).map (fun p => p.1)).min? = some p0.1
    rw [List.map_cons]
    show some ((c.map (fun p => p.1)).foldl min p0.1) = some p0.1
    rw [foldl_min_of_le _ p0.1 hle]
  simp [minKey, hmin]

/-- Deleting the head key of a strictly sorted cache removes exactly the
head entry. -/
theorem delKey_sorted_head {α : Type} (p0 : ℕ × α) (c : List (ℕ × α))
    (hs : (cacheKeys (p0 :: c)).Sorted (· < ·)) : delKey (p0 :: c) p0.1 = c := by
  simp only [cacheKeys, List.map_cons] at hs
  have hall : ∀ p ∈ c, p.1 ≠ p0.1 := by
    intro p hp
    have := (List.pairwise_cons.mp hs).1 p.1 (List.mem_map_of_mem _ hp)
    omega
  unfold delKey
  rw [List.filter_cons, if_neg (by simp)]
  rw [List.filter_eq_self]
  intro p hp
  simpa using hall p hp

/-- Inserting a fresh key appends the new entry on the right. -/
theorem dictInsert_fresh {α : Type} (c : List (ℕ × α)) (k : ℕ) (v : α)
    (h : ∀ x ∈ cacheKeys c, x ≠ k) : dictInsert c k v = c ++ [(k, v)] := by
  have hany : c.any (fun p => p.1 = k) = false := by
    rw [List.any_eq_false]
    intro p hp
    simpa using h p.1 (List.mem_map_of_mem _ hp)
  simp [dictInsert, hany]

/-- One `cachePut` never grows the cache beyond 1000 entries. -/
theorem cachePut_length_le {α : Type} (c : List (ℕ × α)) (k : ℕ) (v : α)
    (h : c.length ≤ 1000) : (cachePut c k v).length ≤ 1000 := by
  have hlen1 : (dictInsert c k v).length ≤ 1001 := by
    unfold dictInsert
    by_cases hmem : c.any (fun p => p.1 = k) = true
    · rw [if_pos hmem]
      simp
      omega
    · rw [if_neg hmem]
      simp
      omega
  unfold cachePut
  by_cases hbig : 1000 < (dictInsert c k v).length
  · rw [if_pos hbig]
    have hne : dictInsert c k v ≠ [] := by
      intro he
      rw [he] at hbig
      simp at hbig
    have hmem2 := minKey_mem (dictInsert c k v) hne
    rw [cacheKeys, List.mem_map] at hmem2
    obtain ⟨p, hp, hpk⟩ := hmem2
    have hdrop : (delKey (dictInsert c k v) (minKey (dictInsert c k v))).length <
        (dictInsert c k v).length := by
      unfold delKey
      rw [List.length_filter_lt_length_iff_exists]
      exact ⟨p, hp, by simp [hpk]⟩
    omega
  · rw [if_neg hbig]
    omega

/-- Folding strictly increasing keyed insertions into a bounded cache
keeps exactly the most recent `min 1000 n` entries, in insertion order. -/
theorem foldPut_keys {α : Type} (ps : List (ℕ × α)) :
    ∀ c : List (ℕ × α),
      ((cacheKeys c ++ ps.map (fun p => p.1)).Sorted (· < ·)) →
      c.length ≤ 1000 →
      cacheKeys (ps.foldl (fun acc p => cachePut acc p.1 p.2) c) =
        (cacheKeys c ++ ps.map (fun p => p.1)).drop (c.length + ps.length - 1000) := by
  induction ps with
  | nil =>
    intro c hs hlen
    simp only [List.map_nil, List.append_nil, List.foldl_nil, List.length_nil,
      Nat.add_zero]
    rw [Nat.sub_eq_zero_of_le hlen, List.drop_zero]
  | cons p ps ih =>
    intro c hs hlen
    rw [List.map_cons] at hs
    have hfresh : ∀ x ∈ cacheKeys c, x ≠ p.1 := by
      intro x hx
      have : x < p.1 := (List.pairwise_append.mp hs).2.2 x hx p.1 (by simp)
      omega
    have hins : dictInsert c p.1 p.2 = c ++ [(p.1, p.2)] :=
      dictInsert_fresh c p.1 p.2 hfresh
    have hkeys1 : cacheKeys (c ++ [(p.1, p.2)]) = cacheKeys c ++ [p.1] := by
      simp [cacheKeys]
    rw [List.foldl_cons]
    by_cases hlt : c.length < 1000
    · have hput : cachePut c p.1 p.2 = c ++ [(p.1, p.2)] := by
        unfold cachePut
        rw [hins, if_neg (by simp; omega)]
      rw [hput]
      have hs2 : (cacheKeys (c ++ [(p.1, p.2)]) ++ ps.map (fun p => p.1)).Sorted
          (· < ·) := by
        rw [hkeys1, List.append_assoc, List.singleton_append]
        exact hs
      rw [ih (c ++ [(p.1, p.2)]) hs2 (by simp; omega)]
      rw [hkeys1, List.append_assoc, List.singleton_append]
      have heq : (c ++ [(p.1, p.2)]).length + ps.length - 1000 =
          c.length + (p :: ps).length - 1000 := by
        simp only [List.length_append, List.length_cons, List.length_nil]
        omega
      rw [heq, List.map_cons]
    · have hc1000 : c.length = 1000 := by omega
      cases c with
      | nil => simp at hc1000
      | cons p0 c' =>
        have hc'len : c'.length = 999 := by
          simpa using hc1000
        have hsort1 : (cacheKeys (p0 :: (c' ++ [(p.1, p.2)]))).Sorted (· < ·) := by
          refine List.Pairwise.sublist ?_ hs
          have h1 : cacheKeys (p0 :: (c' ++ [(p.1, p.2)])) =
              cacheKeys (p0 :: c') ++ [p.1] := by
            simp [cacheKeys]
          rw [h1]
          exact List.Sublist.append_left
            (List.cons_sublist_cons.mpr (List.nil_sublist _)) _
        have hput : cachePut (p0 :: c') p.1 p.2 = c' ++ [(p.1, p.2)] := by
          unfold cachePut
          rw [hins, if_pos (by simp; omega)]
          rw [show (p0 :: c') ++ [(p.1, p.2)] = p0 :: (c' ++ [(p.1, p.2)]) from rfl]
          rw [minKey_sorted p0 (c' ++ [(p.1, p.2)]) hsort1]
          exact delKey_sorted_head p0 (c' ++ [(p.1, p.2)]) hsort1
        rw [hput]
        have htail : (cacheKeys c' ++ p.1 :: ps.map (fun p => p.1)).Sorted
            (· < ·) := by
          have hcons : (p0.1 :: (cacheKeys c' ++ p.1 :: ps.map
              (fun p => p.1))).Sorted (· < ·) := by
            simpa [cacheKeys] using hs
          exact (List.pairwise_cons.mp hcons).2
        have hs3 : (cacheKeys (c' ++ [(p.1, p.2)]) ++ ps.map (fun p => p.1)).Sorted
            (· < ·) := by
          have h2 : cacheKeys (c' ++ [(p.1, p.2)]) ++ ps.map (fun p => p.1) =
              cacheKeys c' ++ p.1 :: ps.map (fun p => p.1) := by
            simp [cacheKeys]
          rw [h2]
          exact htail
        rw [ih (c' ++ [(p.1, p.2)]) hs3 (by simp; omega)]
        have hL : cacheKeys (p0 :: c') ++ (p :: ps).map (fun p => p.1) =
            p0.1 :: (cacheKeys (c' ++ [(p.1, p.2)]) ++ ps.map (fun p => p.1)) := by
          simp [cacheKeys]
        rw [hL]
        have hn : (p0 :: c').length + (p :: ps).length - 1000 =
            ((c' ++ [(p.1, p.2)]).length + ps.length - 1000) + 1 := by
          simp
          omega
        rw [hn, List.drop_succ_cons]

/-- C4: the history-cache bound. One insertion from any state within the
bound leaves at most 1000 entries (at most one eviction is ever needed),
and a sequence of 1001 insertions with distinct, strictly increasing keys
(as `datetime.now()` produces) starting from the empty cache leaves
exactly the last 1000 inserted entries: the single eviction removed
precisely the smallest — chronologically first-inserted — key. -/
theorem history_cache_bounded_evicts_oldest :
    (∀ (c : List (ℕ × List AggRow)) (k : ℕ) (v : List AggRow),
      c.length ≤ 1000 → (cachePut c k v).length ≤ 1000) ∧
    (∀ ps : List (ℕ × List AggRow),
      (ps.map (fun p => p.1)).Sorted (· < ·) → ps.length = 1001 →
      cacheKeys (ps.foldl (fun acc p => cachePut acc p.1 p.2) []) =
        (ps.map (fun p => p.1)).tail ∧
      (ps.foldl (fun acc p => cachePut acc p.1 p.2) []).length = 1000) := by
  constructor
  · exact fun c k v h => cachePut_length_le c k v h
  · intro ps hs hlen
    have h := foldPut_keys ps [] (by simpa [cacheKeys] using hs) (by simp)
    rw [show cacheKeys ([] : List (ℕ × List AggRow)) = [] from rfl,
      List.nil_append, List.length_nil, Nat.zero_add, hlen,
      show (1001 : ℕ) - 1000 = 1 from rfl, List.drop_one] at h
    refine ⟨h, ?_⟩
    have h2 := congrArg List.length h
    simpa [cacheKeys, hlen] using h2

/-- Witness for C4: 1001 insertions keyed `0..1000` leave the cache with
keys `1..1000` — exactly 1000 entries, the chronologically first key `0`
being the one evicted. -/
theorem history_cache_bounded_evicts_oldest_w :
    cacheKeys (((List.range 1001).map (fun k => (k, ([] : List AggRow)))).foldl
      (fun acc p => cachePut acc p.1 p.2) []) =
      (((List.range 1001).map (fun k => (k, ([] : List AggRow)))).map
        (fun p => p.1)).tail :=
  (history_cache_bounded_evicts_oldest.2
    ((List.range 1001).map (fun k => (k, ([] : List AggRow))))
    (by
      rw [List.map_map]
      rw [show ((fun p : ℕ × List AggRow => p.1) ∘
        (fun k => (k, ([] : List AggRow)))) = id from funext fun k => rfl]
      rw [List.map_id]
      exact List.pairwise_lt_range 1001)
    (by rw [List.length_map, List.length_range])).1
